import Mathlib

/-!
Verification of the `golden-vcr/server-common` repository's SSE broadcast hub
(`sse/handler.go`) and HMAC request signing (`hmac` package).

The Go code is shallowly embedded as executable Lean definitions:

* the Server-Sent-Events handler (`sse/handler.go`): accept-header validation,
  the `write` formatter, the connect-time replay phase, and the streaming loop,
  each modelled as pure functions producing traces of observable actions;
* the broadcast bus (`bus[T]`, whose source file is not part of the provided
  sources; only its callers in `handler.go` and its contract in the design
  document are) — modelled from the spec as a list of bounded subscriber
  queues, with `register` / `unregister` / `publish` / `clear` / `consume`
  transitions;
* the `hmac` package's `signer.Sign` and `verifier.Verify`, over a genuine
  Nat-based implementation of HMAC-SHA-256 and hex encoding.

Byte strings are `List Nat` (each entry < 256); 32-bit words are `Nat` reduced
modulo `2 ^ 32` wherever overflow matters.
-/

/-- Go's `strings.HasPrefix(s, pre)`: character-list prefix test.  (Defined
over `List Char` rather than through `String.isPrefixOf` so that it reduces
by evaluation.) -/
def goHasPre (s pre : String) : Bool :=
  List.isPrefixOf pre.data s.data

namespace SSE

variable {T : Type}

/-- An observable output action on the HTTP response stream:
bytes written (`data`), a `Flush()` call, or a `logger.Error` record emitted
when JSON serialization fails (handler.go line 119). -/
inductive Out where
  | data (s : String)
  | flush
  | logErr
deriving DecidableEq, Repr

/-- handler.go lines 112-115: resolve the event id of a message via the
optional user-supplied `ResolveEventId` callback, defaulting to `""`. -/
def resolveId (resolve : Option (T → String)) (m : T) : String :=
  match resolve with
  | none => ""
  | some f => f m

/-- The body of the loop in `Handler.write` (handler.go lines 111-127) for one
message: resolve the event id, JSON-serialize (the generic serializer is a
parameter `encode`, `none` modelling a `json.Marshal` error); on failure log
the error and skip the message; otherwise emit the `id:` line when the id is
non-empty, then the `data:` line followed by a blank line. -/
def writeMsgOut (resolve : Option (T → String)) (encode : T → Option String) (m : T) :
    List Out :=
  let eventId := resolveId resolve m
  match encode m with
  | none => [Out.logErr]
  | some data =>
      (if eventId ≠ "" then [Out.data ("id: " ++ eventId ++ "\n")] else [])
        ++ [Out.data ("data: " ++ data ++ "\n\n")]

/-- The `for _, message := range messages` loop of `Handler.write`
(handler.go lines 111-127). -/
def writeLoop (resolve : Option (T → String)) (encode : T → Option String) :
    List T → List Out
  | [] => []
  | m :: rest => writeMsgOut resolve encode m ++ writeLoop resolve encode rest

/-- `Handler.write` (handler.go lines 110-129): format every message of the
batch in order, then flush the stream once. -/
def write (resolve : Option (T → String)) (encode : T → Option String)
    (msgs : List T) : List Out :=
  writeLoop resolve encode msgs ++ [Out.flush]

/-- The byte chunks actually written to the response, in order (flushes and
log records carry no bytes). -/
def renderChunks (l : List Out) : List String :=
  l.filterMap fun o =>
    match o with
    | Out.data s => some s
    | _ => none

/-- handler.go line 56: the accept header is rejected when it is present,
not exactly the full wildcard, and does not begin with `text/event-stream`. -/
def acceptRejected (accept : String) : Bool :=
  accept != "" && accept != "*/*" && !(goHasPre accept "text/event-stream")

/-- The request data `ServeHTTP` consults: `req.Header.Get("accept")` and
`req.Header.Get("last-event-id")`, both `""` when the header is absent. -/
structure SseRequest where
  accept : String
  lastEventId : String
deriving DecidableEq, Repr

/-- An observable action of the initialization phase of `ServeHTTP`
(handler.go lines 51-87): an `http.Error` response, a response-header set, the
status write, output on the stream, an invocation of the user-supplied
`OnConnect` callback with the `last-event-id` value, or the registration of
the session's subscriber channel with the bus. -/
inductive Action where
  | httpError (status : Nat) (message : String)
  | setHeader (key value : String)
  | writeStatus (status : Nat)
  | out (o : Out)
  | onConnect (lastEventId : String)
  | register
deriving DecidableEq, Repr

/-- The `OnConnect` invocations recorded in an initialization trace, each with
the `last-event-id` value it was passed, in order. -/
def onConnectCalls (tr : List Action) : List String :=
  tr.filterMap fun a =>
    match a with
    | Action.onConnect s => some s
    | _ => none

/-- handler.go lines 63-67: headers and status written on acceptance, and the
immediate flush establishing the stream. -/
def acceptedHeaders : List Action :=
  [Action.setHeader "content-type" "text/event-stream",
   Action.setHeader "cache-control" "no-cache",
   Action.setHeader "connection" "keep-alive",
   Action.writeStatus 200,
   Action.out Out.flush]

/-- The initialization phase of `ServeHTTP` (handler.go lines 51-87), as the
trace of actions it performs, in order.  Mirrors the source: reject a bad
accept header with a 400 `http.Error` and return at once (no registration);
otherwise write headers and status and flush; resolve `onConnectMessages`
through the optional `OnConnect` callback (called with the verbatim
`last-event-id` header value, `""` when the header is absent); write the
backlog through `Handler.write` when non-empty, or the `":\n\n"` keepalive
comment plus a flush otherwise; finally register the freshly made subscriber
channel with the bus.  (The `logger.Info` call on line 90 is omitted: no claim
concerns it.) -/
def serveInit (resolve : Option (T → String)) (encode : T → Option String)
    (onConnect : Option (String → List T)) (req : SseRequest) :
    List Action :=
  if acceptRejected req.accept then
    [Action.httpError 400 ("content-type " ++ req.accept ++ " is not supported")]
  else
    let onConnectMessages : List T :=
      match onConnect with
      | none => []
      | some f => f req.lastEventId
    let callTrace : List Action :=
      match onConnect with
      | none => []
      | some _ => [Action.onConnect req.lastEventId]
    acceptedHeaders
      ++ callTrace
      ++ (if onConnectMessages.length > 0 then
            (write resolve encode onConnectMessages).map Action.out
          else
            [Action.out (Out.data ":\n\n"), Action.out Out.flush])
      ++ [Action.register]

/-- handler.go line 86: `ch := make(chan T, 32)` — each subscriber channel is
a bounded buffer of capacity 32. -/
def queueCapacity : Nat := 32

/-- A subscriber queue: `buf` is the channel's current buffered contents,
`log` is the history of every message ever enqueued into it (kept by the
model solely to state delivery properties). -/
structure Queue (T : Type) where
  buf : List T
  log : List T
deriving DecidableEq

/-- Modelled from the spec: the state of `bus[T]` (the `bus` type's source
file is missing from the provided sources; `handler.go` declares the field
`b bus[T]` with `chs map[chan T]struct{}` and calls its methods, and the
design document §4.1 gives its contract).  The live set of subscriber
channels, here keyed by a numeric channel identity. -/
structure BusState (T : Type) where
  chs : List (Nat × Queue T)
deriving DecidableEq

/-- Modelled from the spec: `bus.register(queue)` adds the queue to the live
set; no error condition, always succeeds (§4.1).  `ServeHTTP` only ever
registers a freshly made channel. -/
def register (i : Nat) (s : BusState T) : BusState T :=
  ⟨s.chs ++ [(i, ⟨[], []⟩)]⟩

/-- Modelled from the spec: `bus.unregister(queue)` removes the queue from
the live set if present; a no-op if already absent (§4.1). -/
def unregister (i : Nat) (s : BusState T) : BusState T :=
  ⟨s.chs.filter fun p => p.1 != i⟩

/-- The effect of one published message on one subscriber queue: a
non-blocking enqueue when the buffer has room, otherwise the message is
dropped for this queue (its state is unchanged). -/
def queuePub (m : T) (q : Queue T) : Queue T :=
  if q.buf.length < queueCapacity then ⟨q.buf ++ [m], q.log ++ [m]⟩ else q

/-- Modelled from the spec: `bus.publish(message)` attempts, for every
currently registered queue, a non-blocking enqueue; when a queue's buffer is
full the message is dropped for that queue only, so the publisher never
blocks and no error is ever raised back to it (§4.1, §7). -/
def publish (m : T) (s : BusState T) : BusState T :=
  ⟨s.chs.map fun p => (p.1, queuePub m p.2)⟩

/-- Modelled from the spec: `bus.clear()` forcibly empties the live set at
controller shutdown (§4.1; called from the `NewHandler` goroutine,
handler.go line 39). -/
def clear (_s : BusState T) : BusState T := ⟨[]⟩

/-- The session side of the channel receiving one message: the front of the
buffer is removed; the enqueue history `log` is unchanged. -/
def queueRecv (q : Queue T) : Queue T :=
  ⟨q.buf.tail, q.log⟩

/-- The session side of the channel: `case message := <-ch` (handler.go
line 96) removes the front of its queue's buffer. -/
def consume (i : Nat) (s : BusState T) : BusState T :=
  ⟨s.chs.map fun p => (p.1, if p.1 == i then queueRecv p.2 else p.2)⟩

/-- One operation on the bus: the four spec-contract operations plus the
session-side receive. -/
inductive BusOp (T : Type) where
  | publish (m : T)
  | register (i : Nat)
  | unregister (i : Nat)
  | consume (i : Nat)
  | clear
deriving DecidableEq

/-- Interpret one bus operation. -/
def busStep (s : BusState T) : BusOp T → BusState T
  | BusOp.publish m => publish m s
  | BusOp.register i => register i s
  | BusOp.unregister i => unregister i s
  | BusOp.consume i => consume i s
  | BusOp.clear => clear s

/-- Interpret a sequence of bus operations, in order. -/
def busRun (s : BusState T) : List (BusOp T) → BusState T
  | [] => s
  | op :: ops => busRun (busStep s op) ops

/-- The queue currently registered under identity `i`, if any. -/
def getQ (i : Nat) (s : BusState T) : Option (Queue T) :=
  (s.chs.find? fun p => p.1 == i).map fun p => p.2

/-- The messages published by a sequence of bus operations, in order. -/
def publishes : List (BusOp T) → List T :=
  List.filterMap fun op =>
    match op with
    | BusOp.publish m => some m
    | _ => none

/-- Queue `i` stays registered across these operations: none of them
unregisters it, re-registers its identity, or clears the bus. -/
def windowSafe (i : Nat) (ops : List (BusOp T)) : Bool :=
  ops.all fun op =>
    match op with
    | BusOp.register j => j != i
    | BusOp.unregister j => j != i
    | BusOp.clear => false
    | _ => true

/-- Along this run, queue `i`'s buffer is never full at the moment of a
publish, so no publish is dropped for it. -/
def noDrops (i : Nat) : BusState T → List (BusOp T) → Bool
  | _, [] => true
  | s, op :: ops =>
    (match op with
     | BusOp.publish _ =>
        match getQ i s with
        | some q => decide (q.buf.length < queueCapacity)
        | none => true
     | _ => true)
      && noDrops i (busStep s op) ops

/-- The per-session configuration the streaming loop reads: the two optional
user callbacks consulted by `Handler.write`, and `panics m` modelling that
the user-supplied callback raises a runtime panic while `h.write` formats
message `m` (ServeHTTP installs no `defer`/`recover`, so such a panic
propagates out of the handler). -/
structure SessionCfg (T : Type) where
  resolve : Option (T → String)
  encode : T → Option String
  panics : T → Bool

/-- The state a streaming session (handler.go lines 91-107) acts on: the
shared bus, the identity of the session's own channel, and the output
written to the response so far. -/
structure SessionState (T : Type) where
  bus : BusState T
  chId : Nat
  out : List Out
deriving DecidableEq

/-- How an iteration of the streaming loop left the session: still looping,
returned through the shutdown case (line 98) or the disconnect case
(line 102), or terminated by a panic escaping `h.write`. -/
inductive SessionStatus where
  | streaming
  | closedShutdown
  | closedDisconnect
  | panicked
deriving DecidableEq, Repr

/-- The event one iteration of the `select` (handler.go lines 92-106) acted
on: the 30-second timer fired, a message arrived on the session's channel,
the process-wide context was cancelled, or the request's context was
cancelled. -/
inductive LoopEvent (T : Type) where
  | timerFired
  | msg (m : T)
  | ctxDone
  | reqDone
deriving DecidableEq

/-- One iteration of the streaming loop (handler.go lines 91-107): on the
timer, write the `":\n\n"` comment and flush, then loop (re-arming the
timer); on a message, receive it from the channel and format it through
`Handler.write` — unless the user callback panics, in which case the panic
propagates out of `ServeHTTP` with no unregistration; on either cancellation,
unregister the session's channel from the bus and return. -/
def loopStep (cfg : SessionCfg T) (s : SessionState T) :
    LoopEvent T → SessionState T × SessionStatus
  | LoopEvent.timerFired =>
      ({ s with out := s.out ++ [Out.data ":\n\n", Out.flush] }, SessionStatus.streaming)
  | LoopEvent.msg m =>
      let s' := { s with bus := consume s.chId s.bus }
      if cfg.panics m then (s', SessionStatus.panicked)
      else ({ s' with out := s'.out ++ write cfg.resolve cfg.encode [m] },
            SessionStatus.streaming)
  | LoopEvent.ctxDone =>
      ({ s with bus := unregister s.chId s.bus }, SessionStatus.closedShutdown)
  | LoopEvent.reqDone =>
      ({ s with bus := unregister s.chId s.bus }, SessionStatus.closedDisconnect)

/-- Run the streaming loop over a sequence of iteration events, stopping at
the first exiting iteration. -/
def runLoop (cfg : SessionCfg T) (s : SessionState T) :
    List (LoopEvent T) → SessionState T × SessionStatus
  | [] => (s, SessionStatus.streaming)
  | ev :: evs =>
      match loopStep cfg s ev with
      | (s', SessionStatus.streaming) => runLoop cfg s' evs
      | r => r

/-- handler.go line 93: `time.After(30 * time.Second)` — the idle interval,
in seconds, after which the heartbeat branch of the `select` fires. -/
def idleTimeoutSeconds : Nat := 30

/-- An external occurrence racing the idle timer inside one `select`:
a message ready on the channel, or one of the two cancellations. -/
inductive Arrival (T : Type) where
  | msg (m : T)
  | ctxDone
  | reqDone
deriving DecidableEq

/-- The loop event an arrival produces when it beats the timer. -/
def arrivalEvent : Arrival T → LoopEvent T
  | Arrival.msg m => LoopEvent.msg m
  | Arrival.ctxDone => LoopEvent.ctxDone
  | Arrival.reqDone => LoopEvent.reqDone

/-- The branch a `select` iteration takes, given the next external
occurrence and the number of seconds until it (or `none` when nothing
arrives at all): an arrival strictly inside the 30-second window wins;
otherwise `time.After` delivers first and the timer branch fires. -/
def selectEvent : Option (Nat × Arrival T) → LoopEvent T
  | none => LoopEvent.timerFired
  | some (d, a) => if d < idleTimeoutSeconds then arrivalEvent a else LoopEvent.timerFired

end SSE

namespace Hmac

/-- `2 ^ 32`, the modulus of 32-bit word arithmetic. -/
def w32 : Nat := 4294967296

/-- 32-bit addition: `Nat` addition reduced modulo `2 ^ 32`. -/
def add32 (a b : Nat) : Nat := (a + b) % w32

/-- Rotate a 32-bit word right by `n` bits. -/
def rotr (n x : Nat) : Nat := ((x >>> n) ||| (x <<< (32 - n))) % w32

/-- Bitwise complement of a 32-bit word. -/
def not32 (x : Nat) : Nat := x ^^^ (w32 - 1)

/-- SHA-256 `Ch(e, f, g)`. -/
def ch32 (e f g : Nat) : Nat := (e &&& f) ^^^ (not32 e &&& g)

/-- SHA-256 `Maj(a, b, c)`. -/
def maj32 (a b c : Nat) : Nat := (a &&& b) ^^^ (a &&& c) ^^^ (b &&& c)

/-- SHA-256 `Σ0`. -/
def bigSigma0 (x : Nat) : Nat := rotr 2 x ^^^ rotr 13 x ^^^ rotr 22 x

/-- SHA-256 `Σ1`. -/
def bigSigma1 (x : Nat) : Nat := rotr 6 x ^^^ rotr 11 x ^^^ rotr 25 x

/-- SHA-256 `σ0`. -/
def smallSigma0 (x : Nat) : Nat := rotr 7 x ^^^ rotr 18 x ^^^ (x >>> 3)

/-- SHA-256 `σ1`. -/
def smallSigma1 (x : Nat) : Nat := rotr 17 x ^^^ rotr 19 x ^^^ (x >>> 10)

/-- The SHA-256 round constants. -/
def sha256K : List Nat :=
  [1116352408, 1899447441, 3049323471, 3921009573, 961987163,
   1508970993, 2453635748, 2870763221, 3624381080, 310598401,
   607225278, 1426881987, 1925078388, 2162078206, 2614888103,
   3248222580, 3835390401, 4022224774, 264347078, 604807628,
   770255983, 1249150122, 1555081692, 1996064986, 2554220882,
   2821834349, 2952996808, 3210313671, 3336571891, 3584528711,
   113926993, 338241895, 666307205, 773529912, 1294757372,
   1396182291, 1695183700, 1986661051, 2177026350, 2456956037,
   2730485921, 2820302411, 3259730800, 3345764771, 3516065817,
   3600352804, 4094571909, 275423344, 430227734, 506948616,
   659060556, 883997877, 958139571, 1322822218, 1537002063,
   1747873779, 1955562222, 2024104815, 2227730452, 2361852424,
   2428436474, 2756734187, 3204031479, 3329325298]

/-- The SHA-256 initial hash value. -/
def sha256H0 : List Nat :=
  [1779033703, 3144134277, 1013904242, 2773480762, 1359893119,
   2600822924, 528734635, 1541459225]

/-- The big-endian byte representation of `v` in `n` bytes. -/
def beBytes (n v : Nat) : List Nat :=
  (List.range n).map fun i => (v >>> (8 * (n - 1 - i))) % 256

/-- Group a byte list into big-endian 32-bit words (four bytes per word). -/
def toWords : List Nat → List Nat
  | a :: b :: c :: d :: rest =>
      (((a % 256) * 16777216 + (b % 256) * 65536 + (c % 256) * 256 + d % 256)
        : Nat) :: toWords rest
  | _ => []

/-- Extend the 16 words of a block to the 64-entry message schedule. -/
def schedule (w0 : List Nat) : List Nat :=
  (List.range 48).foldl
    (fun ws _ =>
      let i := ws.length
      ws ++ [add32 (add32 (smallSigma1 (ws.getD (i - 2) 0)) (ws.getD (i - 7) 0))
                   (add32 (smallSigma0 (ws.getD (i - 15) 0)) (ws.getD (i - 16) 0))])
    w0

/-- The eight 32-bit working variables of the SHA-256 compression loop. -/
structure Digest where
  a : Nat
  b : Nat
  c : Nat
  d : Nat
  e : Nat
  f : Nat
  g : Nat
  h : Nat
deriving DecidableEq, Repr

/-- One round of the SHA-256 compression function. -/
def sha256Round (w k : Nat) (st : Digest) : Digest :=
  let t1 := add32 st.h (add32 (bigSigma1 st.e) (add32 (ch32 st.e st.f st.g) (add32 k w)))
  let t2 := add32 (bigSigma0 st.a) (maj32 st.a st.b st.c)
  ⟨add32 t1 t2, st.a, st.b, st.c, add32 st.d t1, st.e, st.f, st.g⟩

/-- Compress one 64-byte block into the running hash value. -/
def compress (hs : List Nat) (block : List Nat) : List Nat :=
  let ws := schedule (toWords block)
  let init : Digest :=
    ⟨hs.getD 0 0, hs.getD 1 0, hs.getD 2 0, hs.getD 3 0,
     hs.getD 4 0, hs.getD 5 0, hs.getD 6 0, hs.getD 7 0⟩
  let st := (List.range 64).foldl
    (fun st i => sha256Round (ws.getD i 0) (sha256K.getD i 0) st) init
  [add32 (hs.getD 0 0) st.a, add32 (hs.getD 1 0) st.b,
   add32 (hs.getD 2 0) st.c, add32 (hs.getD 3 0) st.d,
   add32 (hs.getD 4 0) st.e, add32 (hs.getD 5 0) st.f,
   add32 (hs.getD 6 0) st.g, add32 (hs.getD 7 0) st.h]

/-- SHA-256 padding: append `0x80`, zeros to 56 mod 64, and the 64-bit
big-endian bit length. -/
def pad (msg : List Nat) : List Nat :=
  let len := msg.length
  msg ++ [0x80] ++ List.replicate ((64 - (len + 9) % 64) % 64) 0 ++ beBytes 8 (8 * len)

/-- Fold the compression function over the 64-byte blocks of a padded
message. -/
def processBlocksAux : Nat → List Nat → List Nat → List Nat
  | 0, hs, _ => hs
  | _ + 1, hs, [] => hs
  | fuel + 1, hs, b :: rest =>
      processBlocksAux fuel (compress hs ((b :: rest).take 64)) ((b :: rest).drop 64)

/-- Fold the compression function over the 64-byte blocks of a padded
message (`processBlocksAux` recurses structurally on a fuel bound; one unit
of fuel per input byte is always enough, since every step consumes at least
one byte). -/
def processBlocks (hs msg : List Nat) : List Nat :=
  processBlocksAux msg.length hs msg

/-- SHA-256 of a byte string, as its 32 digest bytes. -/
def sha256 (msg : List Nat) : List Nat :=
  (processBlocks sha256H0 (pad msg)).flatMap (beBytes 4)

/-- HMAC-SHA-256 (`crypto/hmac` with `sha256.New`): hash an over-long key,
zero-pad to the 64-byte block size, and compute
`H((k ⊕ opad) ‖ H((k ⊕ ipad) ‖ msg))`. -/
def hmacSha256 (key msg : List Nat) : List Nat :=
  let k1 := if key.length > 64 then sha256 key else key
  let k := k1 ++ List.replicate (64 - k1.length) 0
  let ipadKey := k.map fun b => b ^^^ 0x36
  let opadKey := k.map fun b => b ^^^ 0x5c
  sha256 (opadKey ++ sha256 (ipadKey ++ msg))

/-- A lowercase hexadecimal digit. -/
def hexDigit (n : Nat) : Char :=
  if n < 10 then Char.ofNat (48 + n) else Char.ofNat (87 + n)

/-- `encoding/hex` of one byte: two lowercase hex digits. -/
def hexByte (b : Nat) : String :=
  ⟨[hexDigit (b / 16 % 16), hexDigit (b % 16)]⟩

/-- `hex.EncodeToString`: lowercase hex of a byte string. -/
def hexEncode (bs : List Nat) : String :=
  String.join (bs.map hexByte)

/-- The UTF-8 encoding of one character, as bytes. -/
def charUtf8 (c : Char) : List Nat :=
  let n := c.toNat
  if n < 0x80 then [n]
  else if n < 0x800 then
    [0xC0 ||| (n >>> 6), 0x80 ||| (n &&& 0x3F)]
  else if n < 0x10000 then
    [0xE0 ||| (n >>> 12), 0x80 ||| ((n >>> 6) &&& 0x3F), 0x80 ||| (n &&& 0x3F)]
  else
    [0xF0 ||| (n >>> 18), 0x80 ||| ((n >>> 12) &&& 0x3F),
     0x80 ||| ((n >>> 6) &&& 0x3F), 0x80 ||| (n &&& 0x3F)]

/-- Go's `[]byte(s)`: the UTF-8 bytes of a string. -/
def utf8Bytes (s : String) : List Nat :=
  s.data.flatMap charUtf8

/-- The three HMAC metadata headers of a request (`hmac/headers.go`):
`x-hmac-request-id`, `x-hmac-request-timestamp`, `x-hmac-signature`, each
`""` when absent (`req.Header.Get` returns `""` for a missing header). -/
structure Request where
  requestId : String
  requestTimestamp : String
  signature : String
deriving DecidableEq, Repr

/-- The hex HMAC digest both `Sign` and `Verify` compute: HMAC-SHA-256 keyed
by the shared secret over the request id, then the timestamp, then the body
(three successive `hash.Write` calls, i.e. the concatenation). -/
def macHex (secret requestId timestamp : String) (body : List Nat) : String :=
  hexEncode (hmacSha256 (utf8Bytes secret)
    (utf8Bytes requestId ++ utf8Bytes timestamp ++ body))

/-- `signer.Sign`: keep the request's id and timestamp headers when present,
otherwise fill them with a fresh `uuid.NewString()` and a fresh
`time.Now().Format(time.RFC3339)` — both passed here as the explicit inputs
`freshRequestId` and `freshTimestamp` — then set the signature header to
`"sha256=" ++ hex(HMAC)`.  The Go version's error returns can only arise
from `hash.Write`, which never fails for SHA-256, so `Sign` is total. -/
def Sign (secret freshRequestId freshTimestamp : String) (req : Request)
    (body : List Nat) : Request :=
  let requestId := if req.requestId = "" then freshRequestId else req.requestId
  let timestamp := if req.requestTimestamp = "" then freshTimestamp else req.requestTimestamp
  { requestId := requestId,
    requestTimestamp := timestamp,
    signature := "sha256=" ++ macHex secret requestId timestamp body }

/-- The one error `verifier.Verify` reports (`ErrVerificationFailed`). -/
inductive HmacError where
  | verificationFailed
deriving DecidableEq, Repr

/-- `strings.TrimPrefix`: drop the prefix when present, else return the
string unchanged. -/
def goTrimPre (s pre : String) : String :=
  if goHasPre s pre then ⟨s.data.drop pre.data.length⟩ else s

/-- `verifier.Verify`: fail when the id, timestamp, or signature header is
missing or the signature lacks the `"sha256="` prefix; otherwise recompute
the HMAC hex digest over the same fields and compare it (byte-for-byte, as
`hmac.Equal` does on the two hex strings) with the header's digest. -/
def Verify (secret : String) (req : Request) (body : List Nat) :
    Except HmacError Unit :=
  if req.requestId = "" then Except.error HmacError.verificationFailed
  else if req.requestTimestamp = "" then Except.error HmacError.verificationFailed
  else if req.signature == "" || !(goHasPre req.signature "sha256=") then
    Except.error HmacError.verificationFailed
  else
    let expectedHash := goTrimPre req.signature "sha256="
    let computedHash := macHex secret req.requestId req.requestTimestamp body
    if expectedHash = computedHash then Except.ok ()
    else Except.error HmacError.verificationFailed

end Hmac

namespace SSE

variable {T : Type}

/-- Mapping an entry function that preserves keys commutes with keyed
lookup. -/
theorem find?_map_keyed (g : Nat × Queue T → Nat × Queue T)
    (hg : ∀ p, (g p).1 = p.1) (i : Nat) (l : List (Nat × Queue T)) :
    (l.map g).find? (fun p => p.1 == i) = (l.find? fun p => p.1 == i).map g := by
  induction l with
  | nil => rfl
  | cons p l ih =>
    simp only [List.map_cons, List.find?_cons, hg p]
    cases h : (p.1 == i)
    · simpa [h] using ih
    · simp [h]

/-- Filtering by a predicate implied by the search predicate does not change
the result of `find?`. -/
theorem find?_filter_of_imp (p r : Nat × Queue T → Bool)
    (h : ∀ x, p x = true → r x = true) (l : List (Nat × Queue T)) :
    (l.filter r).find? p = l.find? p := by
  induction l with
  | nil => rfl
  | cons a l ih =>
    by_cases hr : r a = true
    · rw [List.filter_cons_of_pos hr]
      by_cases hp : p a = true
      · rw [List.find?_cons_of_pos _ hp, List.find?_cons_of_pos _ hp]
      · rw [List.find?_cons_of_neg _ hp, List.find?_cons_of_neg _ hp, ih]
    · have hp : ¬ p a = true := fun hpa => hr (h a hpa)
      rw [List.filter_cons_of_neg (by simpa using hr), List.find?_cons_of_neg _ hp, ih]

/-- Filtering away everything the search predicate accepts makes `find?`
come up empty. -/
theorem find?_filter_of_excl (p r : Nat × Queue T → Bool)
    (h : ∀ x, p x = true → r x = false) (l : List (Nat × Queue T)) :
    (l.filter r).find? p = none := by
  induction l with
  | nil => rfl
  | cons a l ih =>
    by_cases hr : r a = true
    · have hp : ¬ p a = true := fun hpa => by rw [h a hpa] at hr; exact Bool.false_ne_true hr
      rw [List.filter_cons_of_pos hr, List.find?_cons_of_neg _ hp, ih]
    · rw [List.filter_cons_of_neg (by simpa using hr), ih]

/-- A publish transforms the queue registered under any identity by
`queuePub`. -/
theorem getQ_publish (i : Nat) (m : T) (s : BusState T) :
    getQ i (publish m s) = (getQ i s).map (queuePub m) := by
  unfold getQ publish
  rw [find?_map_keyed (fun p => (p.1, queuePub m p.2)) (fun p => rfl) i s.chs]
  cases s.chs.find? fun p => p.1 == i <;> rfl

/-- A session-side receive preserves the enqueue history of every registered
queue. -/
theorem getQ_consume_log {i : Nat} {s : BusState T} {q : Queue T} (j : Nat)
    (h : getQ i s = some q) :
    ∃ q2, getQ i (consume j s) = some q2 ∧ q2.log = q.log := by
  unfold getQ consume
  rw [find?_map_keyed (fun p => (p.1, if p.1 == j then queueRecv p.2 else p.2))
    (fun p => rfl) i s.chs]
  unfold getQ at h
  cases hf : s.chs.find? fun p => p.1 == i with
  | none => rw [hf] at h; exact absurd h (by simp)
  | some p =>
    rw [hf] at h
    refine ⟨if p.1 == j then queueRecv p.2 else p.2, by simp, ?_⟩
    have hq : p.2 = q := by simpa using h
    by_cases hj : (p.1 == j) = true <;> simp [hj, queueRecv, hq]

/-- Registering any further queue does not disturb an existing
registration. -/
theorem getQ_register_of_some {i : Nat} {s : BusState T} {q : Queue T} (j : Nat)
    (h : getQ i s = some q) : getQ i (register j s) = some q := by
  unfold getQ register at *
  rw [List.find?_append]
  cases hf : s.chs.find? fun p => p.1 == i with
  | none => rw [hf] at h; exact absurd h (by simp)
  | some p => rw [hf] at h; simpa using h

/-- Registering a fresh identity installs an empty queue under it. -/
theorem getQ_register_fresh {i : Nat} {s : BusState T} (h : getQ i s = none) :
    getQ i (register i s) = some ⟨[], []⟩ := by
  unfold getQ register at *
  rw [List.find?_append]
  have hf : s.chs.find? (fun p => p.1 == i) = none := by
    cases hf : s.chs.find? fun p => p.1 == i with
    | none => rfl
    | some p => rw [hf] at h; exact absurd h (by simp)
  rw [hf]
  simp [List.find?]

/-- Unregistering an identity removes it from the live set. -/
theorem getQ_unregister_self (i : Nat) (s : BusState T) :
    getQ i (unregister i s) = none := by
  unfold getQ unregister
  rw [find?_filter_of_excl _ _ (fun x hx => by
    rw [show x.1 = i from eq_of_beq hx]
    simp)]
  rfl

/-- Unregistering one identity does not disturb another. -/
theorem getQ_unregister_ne {i j : Nat} (h : j ≠ i) (s : BusState T) :
    getQ i (unregister j s) = getQ i s := by
  unfold getQ unregister
  rw [find?_filter_of_imp _ _ (fun x hx => by
    rw [show x.1 = i from eq_of_beq hx]
    exact bne_iff_ne.mpr (Ne.symm h))]

/-- Unfolding equation for `noDrops` on a non-empty operation list. -/
theorem noDrops_cons (i : Nat) (s : BusState T) (op : BusOp T) (ops : List (BusOp T)) :
    noDrops i s (op :: ops)
      = ((match op with
          | BusOp.publish _ =>
              match getQ i s with
              | some q => decide (q.buf.length < queueCapacity)
              | none => true
          | _ => true)
          && noDrops i (busStep s op) ops) := rfl

/-- The heart of the fan-out guarantee: starting from any state in which
queue `i` is registered with history `q.log`, running any sequence of bus
operations that keeps `i` registered appends to its history a subsequence
`ds` of the messages published during the window — and `ds` is the whole
publish sequence whenever the queue's buffer is never full at a publish. -/
theorem window_log_run (i : Nat) (ops : List (BusOp T)) :
    ∀ (s : BusState T) (q : Queue T),
      getQ i s = some q → windowSafe i ops = true →
      ∃ q' ds, getQ i (busRun s ops) = some q'
        ∧ q'.log = q.log ++ ds
        ∧ List.Sublist ds (publishes ops)
        ∧ (noDrops i s ops = true → ds = publishes ops) := by
  induction ops with
  | nil =>
    intro s q hq _
    exact ⟨q, [], hq, by simp, List.nil_sublist _, fun _ => rfl⟩
  | cons op ops ih =>
    intro s q hq hsafe
    unfold windowSafe at hsafe
    rw [List.all_cons, Bool.and_eq_true] at hsafe
    obtain ⟨hop, hops⟩ := hsafe
    have hops' : windowSafe i ops = true := hops
    cases op with
    | publish m =>
      have hstep : getQ i (busStep s (BusOp.publish m)) = some (queuePub m q) := by
        show getQ i (publish m s) = _
        rw [getQ_publish, hq, Option.map_some']
      have hpubs : publishes (BusOp.publish m :: ops) = m :: publishes ops := by
        simp [publishes, List.filterMap_cons]
      have hnd : noDrops i s (BusOp.publish m :: ops)
          = (decide (q.buf.length < queueCapacity)
              && noDrops i (busStep s (BusOp.publish m)) ops) := by
        rw [noDrops_cons, hq]
      by_cases hb : q.buf.length < queueCapacity
      · have hq1 : queuePub m q = ⟨q.buf ++ [m], q.log ++ [m]⟩ := by
          unfold queuePub; rw [if_pos hb]
        obtain ⟨q', ds, h1, h2, h3, h4⟩ :=
          ih (busStep s (BusOp.publish m)) (queuePub m q) hstep hops'
        refine ⟨q', m :: ds, ?_, ?_, ?_, ?_⟩
        · simpa [busRun] using h1
        · rw [h2, hq1]; simp
        · rw [hpubs]; exact List.Sublist.cons₂ m h3
        · intro hnd2
          rw [hnd, Bool.and_eq_true] at hnd2
          rw [hpubs, h4 hnd2.2]
      · have hq1 : queuePub m q = q := by
          unfold queuePub; rw [if_neg hb]
        obtain ⟨q', ds, h1, h2, h3, h4⟩ :=
          ih (busStep s (BusOp.publish m)) q (by rw [hstep, hq1]) hops'
        refine ⟨q', ds, ?_, h2, ?_, ?_⟩
        · simpa [busRun] using h1
        · rw [hpubs]; exact List.Sublist.cons m h3
        · intro hnd2
          rw [hnd, Bool.and_eq_true] at hnd2
          exact absurd hnd2.1 (by simpa using hb)
    | register j =>
      have hstep : getQ i (busStep s (BusOp.register j)) = some q :=
        getQ_register_of_some j hq
      obtain ⟨q', ds, h1, h2, h3, h4⟩ := ih (busStep s (BusOp.register j)) q hstep hops'
      refine ⟨q', ds, ?_, h2, ?_, ?_⟩
      · simpa [busRun] using h1
      · simpa [publishes, List.filterMap_cons] using h3
      · intro hnd2
        have : noDrops i (busStep s (BusOp.register j)) ops = true := by
          rw [noDrops_cons] at hnd2
          simpa using hnd2
        simpa [publishes, List.filterMap_cons] using h4 this
    | unregister j =>
      have hji : j ≠ i := by simpa using hop
      have hstep : getQ i (busStep s (BusOp.unregister j)) = some q := by
        show getQ i (unregister j s) = _
        rw [getQ_unregister_ne hji, hq]
      obtain ⟨q', ds, h1, h2, h3, h4⟩ := ih (busStep s (BusOp.unregister j)) q hstep hops'
      refine ⟨q', ds, ?_, h2, ?_, ?_⟩
      · simpa [busRun] using h1
      · simpa [publishes, List.filterMap_cons] using h3
      · intro hnd2
        have : noDrops i (busStep s (BusOp.unregister j)) ops = true := by
          rw [noDrops_cons] at hnd2
          simpa using hnd2
        simpa [publishes, List.filterMap_cons] using h4 this
    | consume j =>
      obtain ⟨q2, hstep, hlog⟩ := getQ_consume_log (i := i) (s := s) j hq
      obtain ⟨q', ds, h1, h2, h3, h4⟩ := ih (busStep s (BusOp.consume j)) q2 hstep hops'
      refine ⟨q', ds, ?_, by rw [h2, hlog], ?_, ?_⟩
      · simpa [busRun] using h1
      · simpa [publishes, List.filterMap_cons] using h3
      · intro hnd2
        have : noDrops i (busStep s (BusOp.consume j)) ops = true := by
          rw [noDrops_cons] at hnd2
          simpa using hnd2
        simpa [publishes, List.filterMap_cons] using h4 this
    | clear => exact absurd hop (by simp)

/-- C1 (amended): a subscriber queue registered (fresh) with the bus before a
window of operations during which it stays registered receives, via the live
path, a subsequence of exactly the messages published during that window, in
publish order — so it never receives a message published strictly before its
registration — and it receives every such message exactly once provided its
buffer is never full at the moment of a publish.  (Without that proviso a
publish hitting a full buffer is dropped for that queue, see the
counterexample.) -/
theorem sse_subscriber_window_delivery (i : Nat) (s : BusState T)
    (ops : List (BusOp T)) (hfresh : getQ i s = none)
    (hwin : windowSafe i ops = true) :
    ∃ q', getQ i (busRun (busStep s (BusOp.register i)) ops) = some q'
      ∧ List.Sublist q'.log (publishes ops)
      ∧ (noDrops i (busStep s (BusOp.register i)) ops = true →
          q'.log = publishes ops) := by
  have h0 : getQ i (busStep s (BusOp.register i)) = some ⟨[], []⟩ :=
    getQ_register_fresh hfresh
  obtain ⟨q', ds, h1, h2, h3, h4⟩ :=
    window_log_run i ops (busStep s (BusOp.register i)) ⟨[], []⟩ h0 hwin
  refine ⟨q', h1, ?_, fun hnd => ?_⟩
  · rw [h2]; simpa using h3
  · rw [h2, h4 hnd]; rfl

/-- Witness for C1: registering queue 0 on an empty bus and publishing 5 then
6 with room in the buffer delivers exactly `[5, 6]`. -/
theorem sse_subscriber_window_delivery_witness :
    ∃ q' : Queue Nat,
      getQ 0 (busRun (busStep (⟨[]⟩ : BusState Nat) (BusOp.register 0))
          [BusOp.publish 5, BusOp.publish 6]) = some q'
      ∧ List.Sublist q'.log (publishes [BusOp.publish 5, BusOp.publish 6])
      ∧ (noDrops 0 (busStep (⟨[]⟩ : BusState Nat) (BusOp.register 0))
            [BusOp.publish 5, BusOp.publish 6] = true →
          q'.log = publishes [BusOp.publish 5, BusOp.publish 6]) :=
  sse_subscriber_window_delivery 0 ⟨[]⟩ [BusOp.publish 5, BusOp.publish 6]
    (by rfl) (by decide)

set_option maxRecDepth 100000 in
/-- Counterexample to C1 as stated: a queue registered before 33 consecutive
publishes (with its session never draining the channel) receives the 33rd
message `32` zero times, not exactly once — the buffer of capacity 32 is full
and the publish is dropped for that queue. -/
theorem sse_publish_drop_refutes_exactly_once :
    (getQ 0 (busRun (busStep (⟨[]⟩ : BusState Nat) (BusOp.register 0))
        ((List.range 33).map BusOp.publish))).map (fun q => q.log.count 32)
      = some 0
    ∧ publishes ((List.range 33).map (BusOp.publish (T := Nat)))
        = List.range 33
    ∧ (32 : Nat) ∈ List.range 33
    ∧ ¬ (getQ 0 (busRun (busStep (⟨[]⟩ : BusState Nat) (BusOp.register 0))
        ((List.range 33).map BusOp.publish))).map (fun q => q.log.count 32)
      = some 1 := by decide

/-- C2: `queueCapacity` is 32; a publish with no subscribers registered is a
no-op; for every registered queue a publish performs a non-blocking enqueue
when the buffer has room and silently drops the message for that queue only
when it is full; and a publish never grows any buffer beyond the capacity.
`publish` is a total function of the bus state — it returns no error and, by
the drop-on-full policy, models an enqueue that never blocks the
publisher. -/
theorem sse_publish_never_blocks (m : T) (s : BusState T) (i : Nat)
    (q : Queue T) :
    queueCapacity = 32
    ∧ publish m (⟨[]⟩ : BusState T) = ⟨[]⟩
    ∧ (getQ i s = some q →
        getQ i (publish m s) = some (if q.buf.length < queueCapacity
          then ⟨q.buf ++ [m], q.log ++ [m]⟩ else q))
    ∧ ((∀ p ∈ s.chs, p.2.buf.length ≤ queueCapacity) →
        ∀ p ∈ (publish m s).chs, p.2.buf.length ≤ queueCapacity) := by
  refine ⟨rfl, rfl, fun h => ?_, fun hb p hp => ?_⟩
  · rw [getQ_publish, h, Option.map_some']
    rfl
  · unfold publish at hp
    obtain ⟨p0, hp0, rfl⟩ := List.mem_map.mp hp
    unfold queuePub
    by_cases hlt : p0.2.buf.length < queueCapacity
    · have := hb p0 hp0
      simp only [hlt, if_pos, List.length_append, List.length_singleton]
      omega
    · simp only [hlt, if_neg, if_false]
      exact hb p0 hp0

/-- Witness for C2: publishing 5 to a bus holding the single empty queue 0
enqueues 5 into it. -/
theorem sse_publish_never_blocks_witness :
    getQ 0 (publish 5 (⟨[(0, ⟨[], []⟩)]⟩ : BusState Nat)) = some ⟨[5], [5]⟩ :=
  ((sse_publish_never_blocks 5 (⟨[(0, ⟨[], []⟩)]⟩ : BusState Nat) 0
    ⟨[], []⟩).2.2.1 rfl).trans (by decide)

/-- C3 (amended): on both cancellation exit paths of the streaming loop —
the process-wide shutdown case and the client-disconnect case — the
session's subscriber queue is unregistered from the bus before the handler
returns, so the bus no longer holds it.  (The loop body installs no
`defer`/`recover`, so an exit forced by a panic in a user callback does not
unregister the queue; see the counterexample.) -/
theorem sse_cancellation_exit_unregisters (cfg : SessionCfg T)
    (evs : List (LoopEvent T)) :
    ∀ s : SessionState T,
      ((runLoop cfg s evs).2 = SessionStatus.closedShutdown
        ∨ (runLoop cfg s evs).2 = SessionStatus.closedDisconnect) →
      getQ s.chId (runLoop cfg s evs).1.bus = none := by
  induction evs with
  | nil =>
    intro s h
    rcases h with h | h <;> simp [runLoop] at h
  | cons ev evs ih =>
    intro s h
    cases ev with
    | timerFired =>
      have hstep : runLoop cfg s (LoopEvent.timerFired :: evs)
          = runLoop cfg { s with out := s.out ++ [Out.data ":\n\n", Out.flush] } evs := rfl
      rw [hstep] at h ⊢
      exact ih _ h
    | msg m =>
      cases hp : cfg.panics m with
      | true =>
        have hstep : runLoop cfg s (LoopEvent.msg m :: evs)
            = ({ s with bus := consume s.chId s.bus }, SessionStatus.panicked) := by
          simp [runLoop, loopStep, hp]
        rw [hstep] at h
        rcases h with h | h <;> exact absurd h (by simp)
      | false =>
        have hstep : runLoop cfg s (LoopEvent.msg m :: evs)
            = runLoop cfg { s with bus := consume s.chId s.bus, out := s.out ++ write cfg.resolve cfg.encode [m] } evs := by
          simp [runLoop, loopStep, hp]
        rw [hstep] at h ⊢
        exact ih _ h
    | ctxDone =>
      have hstep : runLoop cfg s (LoopEvent.ctxDone :: evs)
          = ({ s with bus := unregister s.chId s.bus }, SessionStatus.closedShutdown) := rfl
      rw [hstep]
      exact getQ_unregister_self s.chId s.bus
    | reqDone =>
      have hstep : runLoop cfg s (LoopEvent.reqDone :: evs)
          = ({ s with bus := unregister s.chId s.bus }, SessionStatus.closedDisconnect) := rfl
      rw [hstep]
      exact getQ_unregister_self s.chId s.bus

/-- Witness for C3: a session with queue 3 registered that observes a client
disconnect leaves the bus without queue 3. -/
theorem sse_cancellation_exit_unregisters_witness :
    getQ 3 (runLoop (⟨none, fun _ => some "", fun _ => false⟩ : SessionCfg Nat)
      ⟨register 3 ⟨[]⟩, 3, []⟩ [LoopEvent.reqDone]).1.bus = none :=
  sse_cancellation_exit_unregisters
    (⟨none, fun _ => some "", fun _ => false⟩ : SessionCfg Nat)
    [LoopEvent.reqDone] ⟨register 3 ⟨[]⟩, 3, []⟩ (Or.inr (by decide))

/-- Counterexample to C3 as stated: when the user-supplied callback panics
while `h.write` formats a received message, the session exits through the
panic — `ServeHTTP` has no `defer`, so `unregister` is never called — and the
bus still retains queue 7 although its consumer is gone. -/
theorem sse_panic_exit_leaves_queue_registered :
    (runLoop (⟨none, fun _ => some "", fun _ => true⟩ : SessionCfg Nat)
        ⟨⟨[(7, ⟨[0], [0]⟩)]⟩, 7, []⟩ [LoopEvent.msg 0]).2 = SessionStatus.panicked
    ∧ getQ 7 (runLoop (⟨none, fun _ => some "", fun _ => true⟩ : SessionCfg Nat)
        ⟨⟨[(7, ⟨[0], [0]⟩)]⟩, 7, []⟩ [LoopEvent.msg 0]).1.bus = some ⟨[], [0]⟩ := by
  decide

/-- C8: the idle timeout is 30 seconds, and whenever a `select` iteration
sees no message delivery and no cancellation within that window, the timer
branch fires: the session writes the `":\n\n"` heartbeat comment, flushes,
and keeps streaming — the next iteration re-arms a fresh 30-second timer —
so an idle connection receives at least one heartbeat per such window. -/
theorem sse_idle_heartbeat (cfg : SessionCfg T) (s : SessionState T)
    (arrival : Option (Nat × Arrival T))
    (h : ∀ d a, arrival = some (d, a) → idleTimeoutSeconds ≤ d) :
    idleTimeoutSeconds = 30
    ∧ selectEvent arrival = LoopEvent.timerFired
    ∧ loopStep cfg s (selectEvent arrival)
        = ({ s with out := s.out ++ [Out.data ":\n\n", Out.flush] },
           SessionStatus.streaming)
    ∧ ∀ evs, runLoop cfg s (selectEvent arrival :: evs)
        = runLoop cfg { s with out := s.out ++ [Out.data ":\n\n", Out.flush] } evs := by
  have hsel : selectEvent arrival = LoopEvent.timerFired := by
    cases arrival with
    | none => rfl
    | some p =>
      obtain ⟨d, a⟩ := p
      have hd : idleTimeoutSeconds ≤ d := h d a rfl
      simp only [selectEvent]
      rw [if_neg (Nat.not_lt.mpr hd)]
  refine ⟨rfl, hsel, ?_, ?_⟩
  · rw [hsel]; rfl
  · intro evs; rw [hsel]; rfl

/-- Witness for C8: an iteration with no arrival at all fires the heartbeat
and continues streaming. -/
theorem sse_idle_heartbeat_witness :
    idleTimeoutSeconds = 30
    ∧ selectEvent (none : Option (Nat × Arrival Nat)) = LoopEvent.timerFired
    ∧ loopStep (⟨none, fun _ => some "", fun _ => false⟩ : SessionCfg Nat)
        ⟨⟨[]⟩, 0, []⟩ (selectEvent none)
        = (⟨⟨[]⟩, 0, [Out.data ":\n\n", Out.flush]⟩, SessionStatus.streaming)
    ∧ ∀ evs, runLoop (⟨none, fun _ => some "", fun _ => false⟩ : SessionCfg Nat)
        ⟨⟨[]⟩, 0, []⟩ (selectEvent none :: evs)
        = runLoop (⟨none, fun _ => some "", fun _ => false⟩ : SessionCfg Nat)
            ⟨⟨[]⟩, 0, [Out.data ":\n\n", Out.flush]⟩ evs :=
  sse_idle_heartbeat (⟨none, fun _ => some "", fun _ => false⟩ : SessionCfg Nat)
    ⟨⟨[]⟩, 0, []⟩ none (fun _ _ h => nomatch h)

/-- `onConnectCalls` distributes over concatenation. -/
theorem onConnectCalls_append (l1 l2 : List Action) :
    onConnectCalls (l1 ++ l2) = onConnectCalls l1 ++ onConnectCalls l2 :=
  List.filterMap_append l1 l2 _

/-- Stream output embedded into the action trace makes no `OnConnect`
calls. -/
theorem onConnectCalls_out_map (l : List Out) :
    onConnectCalls (l.map Action.out) = [] := by
  induction l with
  | nil => rfl
  | cons o l ih => simp [onConnectCalls, List.filterMap_cons] at ih ⊢

/-- The `write` loop over a concatenation of batches is the concatenation of
the loops. -/
theorem writeLoop_append (resolve : Option (T → String))
    (encode : T → Option String) (xs ys : List T) :
    writeLoop resolve encode (xs ++ ys)
      = writeLoop resolve encode xs ++ writeLoop resolve encode ys := by
  induction xs with
  | nil => rfl
  | cons x xs ih => simp [writeLoop, ih]

/-- The per-message formatter never emits a flush. -/
theorem flush_not_mem_writeMsgOut (resolve : Option (T → String))
    (encode : T → Option String) (m : T) :
    Out.flush ∉ writeMsgOut resolve encode m := by
  unfold writeMsgOut
  cases encode m with
  | none => simp
  | some data =>
    intro hmem
    rcases List.mem_append.mp hmem with hmem | hmem
    · by_cases hid : resolveId resolve m ≠ "" <;> simp [hid] at hmem
    · simp at hmem

/-- The `write` loop never emits a flush (the single flush comes after it). -/
theorem flush_not_mem_writeLoop (resolve : Option (T → String))
    (encode : T → Option String) (msgs : List T) :
    Out.flush ∉ writeLoop resolve encode msgs := by
  induction msgs with
  | nil => simp [writeLoop]
  | cons m msgs ih =>
    unfold writeLoop
    intro hmem
    rcases List.mem_append.mp hmem with hmem | hmem
    · exact flush_not_mem_writeMsgOut resolve encode m hmem
    · exact ih hmem

/-- `write` flushes exactly once per batch. -/
theorem count_flush_write (resolve : Option (T → String))
    (encode : T → Option String) (msgs : List T) :
    (write resolve encode msgs).count Out.flush = 1 := by
  unfold write
  rw [List.count_append]
  rw [List.count_eq_zero.mpr (flush_not_mem_writeLoop resolve encode msgs)]
  rfl

/-- The `write` loop is the in-order concatenation of the per-message
formatter's output. -/
theorem writeLoop_eq_flatten (resolve : Option (T → String))
    (encode : T → Option String) (msgs : List T) :
    writeLoop resolve encode msgs
      = (msgs.map (writeMsgOut resolve encode)).flatten := by
  induction msgs with
  | nil => rfl
  | cons m msgs ih => simp [writeLoop, ih]

/-- C4: a request whose accept header is present and neither the full
wildcard nor a string beginning with `text/event-stream` is answered by a
single 400 `http.Error` and nothing else — in particular no subscriber
queue is registered; any other accept value (absent, `*/*`, or a
`text/event-stream` prefix) is accepted: the session writes status 200 and
reaches the registration of its subscriber queue. -/
theorem sse_accept_validation (resolve : Option (T → String))
    (encode : T → Option String) (onConnect : Option (String → List T))
    (req : SseRequest) :
    (acceptRejected req.accept = true →
      serveInit resolve encode onConnect req
        = [Action.httpError 400 ("content-type " ++ req.accept ++ " is not supported")]
      ∧ Action.register ∉ serveInit resolve encode onConnect req)
    ∧ (acceptRejected req.accept = false →
      Action.register ∈ serveInit resolve encode onConnect req
      ∧ Action.writeStatus 200 ∈ serveInit resolve encode onConnect req) := by
  constructor
  · intro h
    have htr : serveInit resolve encode onConnect req
        = [Action.httpError 400 ("content-type " ++ req.accept ++ " is not supported")] := by
      unfold serveInit
      rw [if_pos h]
    exact ⟨htr, by rw [htr]; simp⟩
  · intro h
    have htr : serveInit resolve encode onConnect req
        = acceptedHeaders
          ++ (match onConnect with
              | none => []
              | some _ => [Action.onConnect req.lastEventId])
          ++ (if (match onConnect with
                  | none => ([] : List T)
                  | some f => f req.lastEventId).length > 0 then
                (write resolve encode (match onConnect with
                  | none => []
                  | some f => f req.lastEventId)).map Action.out
              else [Action.out (Out.data ":\n\n"), Action.out Out.flush])
          ++ [Action.register] := by
      unfold serveInit
      rw [if_neg (by simp [h])]
    rw [htr]
    constructor
    · simp
    · simp [acceptedHeaders]

/-- Witness for C4: `accept: application/json` draws the 400 error with no
registration, while an absent accept header reaches registration and the
200 status. -/
theorem sse_accept_validation_witness :
    (serveInit (T := Nat) none (fun _ => some "") none ⟨"application/json", ""⟩
      = [Action.httpError 400 ("content-type " ++ "application/json" ++ " is not supported")]
     ∧ Action.register ∉ serveInit (T := Nat) none (fun _ => some "") none
        ⟨"application/json", ""⟩)
    ∧ (Action.register ∈ serveInit (T := Nat) none (fun _ => some "") none ⟨"", ""⟩
       ∧ Action.writeStatus 200 ∈ serveInit (T := Nat) none (fun _ => some "") none
          ⟨"", ""⟩) :=
  ⟨(sse_accept_validation none (fun _ => some "") none ⟨"application/json", ""⟩).1
      (by decide),
   (sse_accept_validation none (fun _ => some "") none ⟨"", ""⟩).2 (by decide)⟩

/-- C9: the wildcard form of the accept header is matched only by exact
equality with `*/*` — `acceptRejected` accepts exactly the empty header,
the exact string `*/*`, and strings beginning with `text/event-stream` —
so `*/*;q=0.9` and `text/*` draw the 400 error while
`text/event-stream;charset=utf-8` is accepted. -/
theorem sse_accept_wildcard_exact :
    (∀ a : String, acceptRejected a = false ↔
      (a = "" ∨ a = "*/*" ∨ goHasPre a "text/event-stream" = true))
    ∧ acceptRejected "*/*;q=0.9" = true
    ∧ acceptRejected "text/*" = true
    ∧ acceptRejected "text/event-stream;charset=utf-8" = false
    ∧ serveInit (T := Nat) none (fun _ => some "") none ⟨"*/*;q=0.9", ""⟩
        = [Action.httpError 400 "content-type */*;q=0.9 is not supported"]
    ∧ Action.register ∈ serveInit (T := Nat) none (fun _ => some "") none
        ⟨"text/event-stream;charset=utf-8", ""⟩ := by
  refine ⟨?_, by decide, by decide, by decide, by decide, by decide⟩
  intro a
  unfold acceptRejected
  by_cases h1 : a = ""
  · simp [h1]
  · by_cases h2 : a = "*/*"
    · simp [h2]
    · simp [h1, h2]

/-- Witness for C9: the empty (absent) accept header is accepted. -/
theorem sse_accept_wildcard_exact_witness :
    acceptRejected "" = false :=
  (sse_accept_wildcard_exact.1 "").mpr (Or.inl rfl)

/-- C5: on an accepted request with a replay resolver configured, the
session invokes `OnConnect` exactly once, with the request's
`last-event-id` header value verbatim; when the resolver returns a
non-empty backlog the whole initialization trace is the headers, the single
`OnConnect` call, the formatted backlog (written through `Handler.write`,
in order, flushed) and only then the registration of the live queue — so
every backlog byte precedes every live message; when the resolver returns
no backlog, or no resolver is configured, the single `":\n\n"` comment and
a flush are written instead, and without a resolver `OnConnect` is never
called. -/
theorem sse_onconnect_replay (resolve : Option (T → String))
    (encode : T → Option String) (f : String → List T) (req : SseRequest)
    (h : acceptRejected req.accept = false) :
    onConnectCalls (serveInit resolve encode (some f) req) = [req.lastEventId]
    ∧ (f req.lastEventId ≠ [] →
        serveInit resolve encode (some f) req
          = acceptedHeaders ++ [Action.onConnect req.lastEventId]
            ++ (write resolve encode (f req.lastEventId)).map Action.out
            ++ [Action.register])
    ∧ (f req.lastEventId = [] →
        serveInit resolve encode (some f) req
          = acceptedHeaders ++ [Action.onConnect req.lastEventId]
            ++ [Action.out (Out.data ":\n\n"), Action.out Out.flush]
            ++ [Action.register])
    ∧ serveInit resolve encode none req
        = acceptedHeaders ++ [Action.out (Out.data ":\n\n"), Action.out Out.flush]
          ++ [Action.register]
    ∧ onConnectCalls (serveInit resolve encode none req) = [] := by
  have hsome : serveInit resolve encode (some f) req
      = acceptedHeaders ++ [Action.onConnect req.lastEventId]
        ++ (if (f req.lastEventId).length > 0 then
              (write resolve encode (f req.lastEventId)).map Action.out
            else [Action.out (Out.data ":\n\n"), Action.out Out.flush])
        ++ [Action.register] := by
    unfold serveInit
    rw [if_neg (by simp [h])]
  have hnone : serveInit resolve encode none req
      = acceptedHeaders ++ [Action.out (Out.data ":\n\n"), Action.out Out.flush]
        ++ [Action.register] := by
    unfold serveInit
    rw [if_neg (by simp [h])]
    simp [List.append_assoc]
  refine ⟨?_, fun hne => ?_, fun he => ?_, hnone, ?_⟩
  · rw [hsome]
    by_cases hc : (f req.lastEventId).length > 0
    · rw [if_pos hc]
      simp [onConnectCalls_append, onConnectCalls_out_map, onConnectCalls,
        acceptedHeaders, List.filterMap_cons]
    · rw [if_neg hc]
      simp [onConnectCalls_append, onConnectCalls, acceptedHeaders,
        List.filterMap_cons]
  · rw [hsome, if_pos (List.length_pos.mpr hne)]
  · rw [hsome, if_neg (by simp [he])]
  · rw [hnone]
    simp [onConnectCalls_append, onConnectCalls, acceptedHeaders,
      List.filterMap_cons]

/-- Witness for C5: with a resolver returning one message, the trace calls
`OnConnect` exactly once with the verbatim `last-event-id` value `201`. -/
theorem sse_onconnect_replay_witness :
    onConnectCalls (serveInit (T := Nat) none (fun _ => some "x")
      (some fun _ => [1]) ⟨"", "201"⟩) = ["201"] :=
  (sse_onconnect_replay none (fun _ => some "x") (fun _ => [1]) ⟨"", "201"⟩
    (by decide)).1

/-- C6: `Handler.write` emits, per message and in batch order, the
formatter's lines — for a message whose serialization succeeds, an
`id: <id>` line exactly when the resolved event id is non-empty, then a
`data: <json>` line terminated by the blank line (the trailing `"\n\n"`) —
and after the whole batch it flushes exactly once, as the final action. -/
theorem sse_write_format (resolve : Option (T → String))
    (encode : T → Option String) (msgs : List T) (m : T) (json : String) :
    write resolve encode msgs
      = (msgs.map (writeMsgOut resolve encode)).flatten ++ [Out.flush]
    ∧ (write resolve encode msgs).count Out.flush = 1
    ∧ (write resolve encode msgs).getLast? = some Out.flush
    ∧ (encode m = some json →
        writeMsgOut resolve encode m
          = (if resolveId resolve m ≠ "" then
              [Out.data ("id: " ++ resolveId resolve m ++ "\n")] else [])
            ++ [Out.data ("data: " ++ json ++ "\n\n")]) := by
  refine ⟨?_, count_flush_write resolve encode msgs, ?_, fun he => ?_⟩
  · unfold write
    rw [writeLoop_eq_flatten]
  · unfold write
    exact List.getLast?_concat _
  · unfold writeMsgOut
    rw [he]

/-- Witness for C6: a message with event id `301` and payload `{}` formats
as the id line, then the data line with its blank-line terminator. -/
theorem sse_write_format_witness :
    writeMsgOut (T := Nat) (some fun _ => "301") (fun _ => some "{}") 0
      = [Out.data "id: 301\n", Out.data "data: {}\n\n"] := by
  rw [(sse_write_format (T := Nat) (some fun _ => "301") (fun _ => some "{}")
    [] 0 "{}").2.2.2 rfl]
  decide

/-- C7: when serialization of one message in a batch fails, the formatter
logs the error in that message's position and emits no `id` or `data` line
for it; every other message of the batch is still written exactly as it
would have been without the failing one, and the batch still ends with its
single flush — the session continues unaffected. -/
theorem sse_write_skip_on_encode_failure (resolve : Option (T → String))
    (encode : T → Option String) (xs ys : List T) (m : T)
    (h : encode m = none) :
    writeLoop resolve encode (xs ++ m :: ys)
      = writeLoop resolve encode xs ++ Out.logErr :: writeLoop resolve encode ys
    ∧ renderChunks (write resolve encode (xs ++ m :: ys))
        = renderChunks (write resolve encode (xs ++ ys))
    ∧ (write resolve encode (xs ++ m :: ys)).count Out.flush = 1 := by
  have hm : writeMsgOut resolve encode m = [Out.logErr] := by
    unfold writeMsgOut
    rw [h]
  have hsplit : writeLoop resolve encode (xs ++ m :: ys)
      = writeLoop resolve encode xs ++ Out.logErr :: writeLoop resolve encode ys := by
    rw [writeLoop_append]
    show _ ++ (writeMsgOut resolve encode m ++ writeLoop resolve encode ys) = _
    rw [hm]
    rfl
  refine ⟨hsplit, ?_, count_flush_write resolve encode _⟩
  unfold write renderChunks
  rw [hsplit, writeLoop_append]
  simp [List.filterMap_append, List.filterMap_cons]

/-- Witness for C7: in the batch `[1, 0, 2]` where `0` fails to serialize,
the bytes written are exactly those of the batch `[1, 2]`. -/
theorem sse_write_skip_on_encode_failure_witness :
    renderChunks (write (T := Nat) none
        (fun n => if n = 0 then none else some "ok") ([1] ++ 0 :: [2]))
      = renderChunks (write (T := Nat) none
        (fun n => if n = 0 then none else some "ok") ([1] ++ [2])) :=
  (sse_write_skip_on_encode_failure none
    (fun n => if n = 0 then none else some "ok") [1] [2] 0 (by decide)).2.1

end SSE

namespace Hmac

/-- String concatenation concatenates the underlying character lists. -/
theorem data_append (a b : String) : (a ++ b).data = a.data ++ b.data := by
  cases a
  cases b
  rfl

/-- Any extension of a string by concatenation keeps it as a prefix. -/
theorem goHasPre_append (pre rest : String) :
    goHasPre (pre ++ rest) pre = true := by
  unfold goHasPre
  rw [data_append]
  exact List.isPrefixOf_iff_prefix.mpr (List.prefix_append pre.data rest.data)

/-- Trimming a prefix off the concatenation that starts with it returns the
rest. -/
theorem goTrimPre_append (pre rest : String) :
    goTrimPre (pre ++ rest) pre = rest := by
  unfold goTrimPre
  rw [goHasPre_append]
  simp only [if_true]
  rw [data_append, List.drop_left]

/-- A string starting with `sha256=` is not empty. -/
theorem sha256_append_ne_empty (rest : String) : ("sha256=" ++ rest) ≠ "" := by
  intro hc
  have hd := congrArg String.data hc
  rw [data_append] at hd
  exact absurd (List.append_eq_nil.mp hd).1 (by decide)

/-- C10: signing and verification round-trip — for every shared secret,
request, and body, if `Sign` runs (filling any missing request-id or
timestamp header with the fresh non-empty values `uuid.NewString()` and the
RFC 3339 clock reading provide), then `Verify` with the same secret on the
resulting request and the same body succeeds. -/
theorem hmac_sign_verify_roundtrip (secret freshRequestId freshTimestamp : String)
    (req : Request) (body : List Nat)
    (hid : freshRequestId ≠ "") (hts : freshTimestamp ≠ "") :
    Verify secret (Sign secret freshRequestId freshTimestamp req body) body
      = Except.ok () := by
  have h1 : (if req.requestId = "" then freshRequestId else req.requestId) ≠ "" := by
    by_cases hc : req.requestId = ""
    · rw [if_pos hc]; exact hid
    · rw [if_neg hc]; exact hc
  have h2 : (if req.requestTimestamp = "" then freshTimestamp
      else req.requestTimestamp) ≠ "" := by
    by_cases hc : req.requestTimestamp = ""
    · rw [if_pos hc]; exact hts
    · rw [if_neg hc]; exact hc
  unfold Sign Verify
  simp only
  rw [if_neg h1, if_neg h2]
  rw [if_neg (show ¬ ((("sha256=" ++ macHex secret
      (if req.requestId = "" then freshRequestId else req.requestId)
      (if req.requestTimestamp = "" then freshTimestamp else req.requestTimestamp)
      body : String) == "")
      || !(goHasPre ("sha256=" ++ macHex secret
        (if req.requestId = "" then freshRequestId else req.requestId)
        (if req.requestTimestamp = "" then freshTimestamp else req.requestTimestamp)
        body) "sha256=")) = true by
    rw [goHasPre_append]
    rw [beq_eq_false_iff_ne.mpr (sha256_append_ne_empty _)]
    decide)]
  rw [goTrimPre_append]
  rw [if_pos rfl]

/-- Witness for C10: a signed request with the test suite's secret and body
verifies. -/
theorem hmac_sign_verify_roundtrip_witness :
    Verify "my-secret" (Sign "my-secret" "id-1" "2023-12-06T21:06:04+00:00"
      ⟨"", "", ""⟩ (utf8Bytes "hello world")) (utf8Bytes "hello world")
      = Except.ok () :=
  hmac_sign_verify_roundtrip "my-secret" "id-1" "2023-12-06T21:06:04+00:00"
    ⟨"", "", ""⟩ (utf8Bytes "hello world") (by decide) (by decide)

end Hmac

namespace Hmac

set_option maxRecDepth 100000 in
/-- Validation of the SHA-256 embedding against the standard `abc` test
vector. -/
theorem sha256_abc_test_vector :
    hexEncode (sha256 (utf8Bytes "abc"))
      = "ba7816bf8f01cfea414140de5dae2223b00361a396177a9cb410ff61f20015ad" := by
  rfl

set_option maxRecDepth 100000 in
/-- Validation of the HMAC embedding against the passing case of the Go test
suite (`hmac/sign_test.go`): the signature header value it expects is
reproduced exactly. -/
theorem hmac_go_test_vector :
    macHex "my-secret" "d6c6a6d0-bb4e-4ff2-8188-4dda238f9223"
        "2023-12-06T21:06:04+00:00" (utf8Bytes "hello world")
      = "d1550fb3eea5eb856f5d0297f45568dfb19cfa4f4df3bb8a02e57487a6a8951b" := by
  rfl

end Hmac

namespace SSE

/-- Validation of the session embedding against the fan-out test of the Go
test suite (`sse/handler_test.go`, client A): the full byte stream for a
client connected with no replay resolver that then receives the messages
`{x:200,y:2}` and `{x:300,y:3}` is the initial keepalive comment followed by
the two data lines. -/
theorem sse_client_stream_go_test_vector :
    String.join ((serveInit (T := Nat) none
        (fun n => some (if n = 200 then "\x7b\"x\":200,\"y\":2\x7d" else "\x7b\"x\":300,\"y\":3\x7d"))
        none ⟨"", ""⟩).filterMap fun a =>
          match a with
          | Action.out (Out.data s) => some s
          | _ => none)
      ++ String.join (renderChunks
        (runLoop (⟨none,
            fun n => some (if n = 200 then "\x7b\"x\":200,\"y\":2\x7d" else "\x7b\"x\":300,\"y\":3\x7d"),
            fun _ => false⟩ : SessionCfg Nat)
          ⟨register 0 ⟨[]⟩, 0, []⟩
          [LoopEvent.msg 200, LoopEvent.msg 300]).1.out)
      = ":\n\ndata: \x7b\"x\":200,\"y\":2\x7d\n\ndata: \x7b\"x\":300,\"y\":3\x7d\n\n" := by
  decide

end SSE
